import Mathlib

/-!
Verification development for the SpatioX spatio-temporal point index.

The embedding follows the C++ sources under include/ and src/.  Machine
floats (coordinates, distances) are idealized as an arbitrary linear
ordered field so that every structural definition stays executable; the
trigonometric distance function of utils.hpp is passed to the tree
routines as a parameter, exactly as the free function haversine_distance
is called by SpatialIndex, and is instantiated with the real-valued
Haversine formula for the geometric claims.  Timestamps (C++ double) are
idealized as rationals; the sentinel values used by TemporalIndex are the
exact rational values of std numeric limits for double.  Identifiers
(uint64_t) are naturals; no engine operation can overflow 64 bits in the
idealized model, and no claim depends on wrap-around.
-/

set_option linter.unusedSectionVars false
set_option linter.unusedVariables false

namespace SpatioX

variable {α : Type} [LinearOrderedField α]

/-- Shallow embedding of struct Record (include/record.hpp). -/
structure Record (α : Type) where
  lat : α
  lon : α
  t : ℚ
  id : ℕ
  deriving Repr, DecidableEq

/-- Shallow embedding of class RecordStore (include/record_store.hpp):
a growing array of records, an id to index map, and the next id counter
starting at 1. The unordered map is modeled as an association list whose
most recent binding comes first, matching overwrite-on-insert lookup
semantics. -/
structure RecordStore (α : Type) where
  records : List (Record α)
  id_to_index : List (ℕ × ℕ)
  next_id : ℕ
  deriving Repr, DecidableEq

/-- RecordStore::add_record (src/record_store.cpp): allocate the next id,
append the record, bind id to its index, return the id. -/
def RecordStore.add_record (s : RecordStore α) (lat lon : α) (t : ℚ) :
    ℕ × RecordStore α :=
  let id := s.next_id
  let index := s.records.length
  (id, { records := s.records ++ [⟨lat, lon, t, id⟩],
         id_to_index := (id, index) :: s.id_to_index,
         next_id := id + 1 })

/-- RecordStore::get_record (src/record_store.cpp): map lookup, then index
into the record array. -/
def RecordStore.get_record (s : RecordStore α) (id : ℕ) : Option (Record α) :=
  match s.id_to_index.lookup id with
  | none => none
  | some index => s.records[index]?

/-- RecordStore::clear (src/record_store.cpp). -/
def RecordStore.clear (_ : RecordStore α) : RecordStore α :=
  { records := [], id_to_index := [], next_id := 1 }

/-- RecordStore::size. -/
def RecordStore.size (s : RecordStore α) : ℕ := s.records.length

/-- Exact rational value of std numeric limits max for an IEEE double;
its lowest value is the negation. -/
def dblMax : ℚ := 2 ^ 1024 - 2 ^ 971

/-- Shallow embedding of class TemporalIndex (include/temporal_index.hpp):
the multimap is kept as a key-sorted list, with the envelope fields. -/
structure TemporalIndex where
  time_index : List (ℚ × ℕ)
  min_time : ℚ
  max_time : ℚ
  deriving Repr, DecidableEq

/-- Default-constructed TemporalIndex: empty map and sentinel envelope. -/
def TemporalIndex.empty : TemporalIndex :=
  { time_index := [], min_time := dblMax, max_time := -dblMax }

/-- Insertion into the ordered multimap: an equal key goes after the
existing equal keys, as std multimap insert places it at the upper bound. -/
def insertEntry (t : ℚ) (id : ℕ) : List (ℚ × ℕ) → List (ℚ × ℕ)
  | [] => [(t, id)]
  | e :: rest => if e.1 ≤ t then e :: insertEntry t id rest else (t, id) :: e :: rest

/-- TemporalIndex::insert (src/temporal_index.cpp): add the pair and
update the envelope. -/
def TemporalIndex.insert (ti : TemporalIndex) (t : ℚ) (id : ℕ) : TemporalIndex :=
  { time_index := insertEntry t id ti.time_index,
    min_time := min ti.min_time t,
    max_time := max ti.max_time t }

/-- TemporalIndex::clear (src/temporal_index.cpp): drop the map and reset
the envelope to the sentinels. -/
def TemporalIndex.clear (_ : TemporalIndex) : TemporalIndex := TemporalIndex.empty

/-- TemporalIndex::size. -/
def TemporalIndex.size (ti : TemporalIndex) : ℕ := ti.time_index.length

/-- Shallow embedding of struct KDNode (include/spatial_index.hpp): a null
child pointer is the nil constructor.  Fields follow the source order:
point, id, axis, subtree bounds, children. -/
inductive KDTree (α : Type) where
  | nil : KDTree α
  | node (lat lon : α) (id : ℕ) (axis : ℕ)
      (min_lat max_lat min_lon max_lon : α)
      (left right : KDTree α) : KDTree α
  deriving Repr, DecidableEq

/-- Subtree bounding box of a node, as the four bound fields. -/
structure Box (α : Type) where
  min_lat : α
  max_lat : α
  min_lon : α
  max_lon : α
  deriving Repr, DecidableEq

/-- One arm of KDNode::update_bounds: widen a box by the stored bounds of
a child when the child is present. -/
def extendBox (b : Box α) : KDTree α → Box α
  | KDTree.nil => b
  | KDTree.node _ _ _ _ cmnla cmxla cmnlo cmxlo _ _ =>
    { min_lat := min b.min_lat cmnla, max_lat := max b.max_lat cmxla,
      min_lon := min b.min_lon cmnlo, max_lon := max b.max_lon cmxlo }

/-- KDNode::update_bounds (include/spatial_index.hpp): widen the stored
box by the left child bounds, then by the right child bounds. -/
def KDTree.update_bounds : KDTree α → KDTree α
  | KDTree.nil => KDTree.nil
  | KDTree.node la lo id ax mnla mxla mnlo mxlo l r =>
    let b := extendBox (extendBox ⟨mnla, mxla, mnlo, mxlo⟩ l) r
    KDTree.node la lo id ax b.min_lat b.max_lat b.min_lon b.max_lon l r

/-- SpatialIndex::insert_recursive (src/spatial_index.cpp): descend by the
node axis with ties to the right, create a leaf with axis depth mod 2, and
update bounds on the way back up. -/
def insert_recursive (lat lon : α) (id : ℕ) : ℕ → KDTree α → KDTree α
  | depth, KDTree.nil =>
    KDTree.node lat lon id (depth % 2) lat lat lon lon KDTree.nil KDTree.nil
  | depth, KDTree.node nlat nlon nid ax mnla mxla mnlo mxlo l r =>
    let value := if ax = 0 then lat else lon
    let node_value := if ax = 0 then nlat else nlon
    if value < node_value then
      KDTree.update_bounds (KDTree.node nlat nlon nid ax mnla mxla mnlo mxlo
        (insert_recursive lat lon id (depth + 1) l) r)
    else
      KDTree.update_bounds (KDTree.node nlat nlon nid ax mnla mxla mnlo mxlo
        l (insert_recursive lat lon id (depth + 1) r))

/-- Shallow embedding of class SpatialIndex: owning root pointer and size
counter. -/
structure SpatialIndex (α : Type) where
  root : KDTree α
  size : ℕ
  deriving Repr, DecidableEq

/-- SpatialIndex::insert (src/spatial_index.cpp). -/
def SpatialIndex.insert (si : SpatialIndex α) (lat lon : α) (id : ℕ) :
    SpatialIndex α :=
  { root := insert_recursive lat lon id 0 si.root, size := si.size + 1 }

/-- SpatialIndex::clear (src/spatial_index.cpp). -/
def SpatialIndex.clear (_ : SpatialIndex α) : SpatialIndex α :=
  { root := KDTree.nil, size := 0 }

/-- SpatialIndex::radius_query_recursive (src/spatial_index.cpp).  The
Haversine function of utils.hpp is a parameter hav, applied exactly where
the source calls haversine_distance.  Results keep traversal order: the
current node first, then the explored left subtree, then the right. -/
def radius_query_recursive (hav : α → α → α → α → α)
    (center_lat center_lon radius_m : α) : KDTree α → List ℕ
  | KDTree.nil => []
  | KDTree.node nlat nlon nid ax _ _ _ _ l r =>
    let dist := hav center_lat center_lon nlat nlon
    let here := if dist ≤ radius_m then [nid] else []
    let center_value := if ax = 0 then center_lat else center_lon
    let node_value := if ax = 0 then nlat else nlon
    let plane_dist := if ax = 0 then hav center_lat center_lon node_value center_lon
      else hav center_lat center_lon center_lat node_value
    let explore_left := if radius_m < plane_dist then
        (if center_value < node_value then true else false) else true
    let explore_right := if radius_m < plane_dist then
        (if center_value < node_value then false else true) else true
    here ++
      (if explore_left then
        radius_query_recursive hav center_lat center_lon radius_m l else []) ++
      (if explore_right then
        radius_query_recursive hav center_lat center_lon radius_m r else [])

/-- SpatialIndex::radius_query (src/spatial_index.cpp): kilometers are
converted to meters before the recursion. -/
def SpatialIndex.radius_query (hav : α → α → α → α → α) (si : SpatialIndex α)
    (center_lat center_lon radius_km : α) : List ℕ :=
  radius_query_recursive hav center_lat center_lon (radius_km * 1000) si.root

/-- Shallow embedding of struct SpatialQueryStats. -/
structure SpatialQueryStats where
  nodes_visited : ℕ
  distance_checks : ℕ
  bbox_prunes : ℕ
  distance_prunes : ℕ
  deriving Repr, DecidableEq

/-- SpatialQueryStats::reset: the all-zero statistics record. -/
def SpatialQueryStats.zero : SpatialQueryStats := ⟨0, 0, 0, 0⟩

/-- SpatialIndex::radius_query_instrumented_recursive
(src/spatial_index.cpp): same traversal with the statistics threaded
through. -/
def radius_query_instrumented_recursive (hav : α → α → α → α → α)
    (center_lat center_lon radius_m : α) :
    KDTree α → SpatialQueryStats → List ℕ × SpatialQueryStats
  | KDTree.nil, stats => ([], stats)
  | KDTree.node nlat nlon nid ax _ _ _ _ l r, stats =>
    let stats1 := { stats with nodes_visited := stats.nodes_visited + 1,
                               distance_checks := stats.distance_checks + 1 }
    let dist := hav center_lat center_lon nlat nlon
    let here := if dist ≤ radius_m then [nid] else []
    let stats2 := { stats1 with distance_checks := stats1.distance_checks + 1 }
    let center_value := if ax = 0 then center_lat else center_lon
    let node_value := if ax = 0 then nlat else nlon
    let plane_dist := if ax = 0 then hav center_lat center_lon node_value center_lon
      else hav center_lat center_lon center_lat node_value
    let stats3 := if radius_m < plane_dist then
        { stats2 with distance_prunes := stats2.distance_prunes + 1 } else stats2
    let explore_left := if radius_m < plane_dist then
        (if center_value < node_value then true else false) else true
    let explore_right := if radius_m < plane_dist then
        (if center_value < node_value then false else true) else true
    let step_left := if explore_left then
        radius_query_instrumented_recursive hav center_lat center_lon radius_m l stats3
      else ([], stats3)
    let step_right := if explore_right then
        radius_query_instrumented_recursive hav center_lat center_lon radius_m r step_left.2
      else ([], step_left.2)
    (here ++ step_left.1 ++ step_right.1, step_right.2)

/-- SpatialIndex::radius_query_instrumented (src/spatial_index.cpp): the
mutable statistics argument is reset first, so the run starts from the
zero record. -/
def SpatialIndex.radius_query_instrumented (hav : α → α → α → α → α)
    (si : SpatialIndex α) (center_lat center_lon radius_km : α) :
    List ℕ × SpatialQueryStats :=
  radius_query_instrumented_recursive hav center_lat center_lon
    (radius_km * 1000) si.root SpatialQueryStats.zero

/-- SpatialIndex::in_box (src/spatial_index.cpp). -/
def in_box (lat lon lat_min lon_min lat_max lon_max : α) : Bool :=
  decide (lat ≥ lat_min) && decide (lat ≤ lat_max) &&
  decide (lon ≥ lon_min) && decide (lon ≤ lon_max)

/-- SpatialIndex::box_query_recursive (src/spatial_index.cpp). -/
def box_query_recursive (lat_min lon_min lat_max lon_max : α) :
    KDTree α → List ℕ
  | KDTree.nil => []
  | KDTree.node nlat nlon nid ax _ _ _ _ l r =>
    let here := if in_box nlat nlon lat_min lon_min lat_max lon_max then [nid] else []
    let node_value := if ax = 0 then nlat else nlon
    let low := if ax = 0 then lat_min else lon_min
    let high := if ax = 0 then lat_max else lon_max
    here ++
      (if low ≤ node_value then
        box_query_recursive lat_min lon_min lat_max lon_max l else []) ++
      (if high ≥ node_value then
        box_query_recursive lat_min lon_min lat_max lon_max r else [])

/-- SpatialIndex::box_query (src/spatial_index.cpp). -/
def SpatialIndex.box_query (si : SpatialIndex α)
    (lat_min lon_min lat_max lon_max : α) : List ℕ :=
  box_query_recursive lat_min lon_min lat_max lon_max si.root

/-- Shallow embedding of SpatialIndex::KNNCandidate. -/
structure KNNCandidate (α : Type) where
  id : ℕ
  distance : α
  deriving Repr, DecidableEq

/-- Distance at the heap front.  The std heap maintained by the source
keeps a candidate of maximal distance at the front, so the front distance
is the maximum of the stored distances. -/
def worstDistance : List (KNNCandidate α) → α
  | [] => 0
  | [c] => c.distance
  | c :: rest => max c.distance (worstDistance rest)

/-- Effect of pop_heap followed by overwriting the popped slot: one
candidate holding the maximal distance is removed. -/
def removeWorst (w : α) : List (KNNCandidate α) → List (KNNCandidate α)
  | [] => []
  | c :: rest => if c.distance = w then rest else c :: removeWorst w rest

/-- Candidate update block of SpatialIndex::knn_recursive: push while
fewer than k candidates are held, otherwise replace a worst candidate
when the new distance beats the heap front. -/
def knn_push (k nid : ℕ) (dist : α) (cands : List (KNNCandidate α)) :
    List (KNNCandidate α) :=
  if cands.length < k then ⟨nid, dist⟩ :: cands
  else if dist < worstDistance cands then
    ⟨nid, dist⟩ :: removeWorst (worstDistance cands) cands
  else cands

/-- SpatialIndex::knn_recursive (src/spatial_index.cpp).  The candidate
heap is modeled by its contents: pushing adds a candidate, and the
replacement branch removes a maximal-distance candidate (the heap front)
and adds the new one.  The near child is searched first; the far child is
searched only when the heap is not full or the splitting-plane distance
is below the current worst distance. -/
def knn_recursive (hav : α → α → α → α → α) (query_lat query_lon : α) (k : ℕ) :
    KDTree α → List (KNNCandidate α) → List (KNNCandidate α)
  | KDTree.nil, cands => cands
  | KDTree.node nlat nlon nid ax _ _ _ _ l r, cands =>
    let dist := hav query_lat query_lon nlat nlon
    let cands1 := knn_push k nid dist cands
    let query_value := if ax = 0 then query_lat else query_lon
    let node_value := if ax = 0 then nlat else nlon
    let plane_dist := if ax = 0 then hav query_lat query_lon node_value query_lon
      else hav query_lat query_lon query_lat node_value
    if query_value < node_value then
      let cands2 := knn_recursive hav query_lat query_lon k l cands1
      if cands2.length < k ∨ plane_dist < worstDistance cands2 then
        knn_recursive hav query_lat query_lon k r cands2
      else cands2
    else
      let cands2 := knn_recursive hav query_lat query_lon k r cands1
      if cands2.length < k ∨ plane_dist < worstDistance cands2 then
        knn_recursive hav query_lat query_lon k l cands2
      else cands2

/-- SpatialIndex::knn_query (src/spatial_index.cpp): guard on k = 0 or an
empty tree, then extract the candidate ids. -/
def SpatialIndex.knn_query (hav : α → α → α → α → α) (si : SpatialIndex α)
    (lat lon : α) (k : ℕ) : List ℕ :=
  if k = 0 ∨ si.root = KDTree.nil then []
  else (knn_recursive hav lat lon k si.root []).map (fun c => c.id)

/-- Shallow embedding of struct QueryStats (include/spatio_index_core.hpp). -/
structure QueryStats where
  spatial_nodes_visited : ℕ
  spatial_distance_checks : ℕ
  spatial_bbox_prunes : ℕ
  spatial_distance_prunes : ℕ
  records_filtered_by_time : ℕ
  records_passed_time_filter : ℕ
  result_count : ℕ
  deriving Repr, DecidableEq

/-- QueryStats::reset: the all-zero statistics record. -/
def QueryStats.zero : QueryStats := ⟨0, 0, 0, 0, 0, 0, 0⟩

/-- Shallow embedding of class SpatioIndexCore: the three components and
the build flag. -/
structure SpatioIndexCore (α : Type) where
  record_store : RecordStore α
  spatial_index : SpatialIndex α
  temporal_index : TemporalIndex
  build_completed : Bool
  deriving Repr, DecidableEq

/-- Default-constructed engine. -/
def initialCore : SpatioIndexCore α :=
  { record_store := { records := [], id_to_index := [], next_id := 1 },
    spatial_index := { root := KDTree.nil, size := 0 },
    temporal_index := TemporalIndex.empty,
    build_completed := false }

/-- SpatioIndexCore::insert (src/spatio_index_core.cpp): record table,
then spatial tree, then temporal index; the build flag drops to false. -/
def SpatioIndexCore.insert (e : SpatioIndexCore α) (lat lon : α) (t : ℚ) :
    ℕ × SpatioIndexCore α :=
  let step := e.record_store.add_record lat lon t
  (step.1,
   { record_store := step.2,
     spatial_index := e.spatial_index.insert lat lon step.1,
     temporal_index := e.temporal_index.insert t step.1,
     build_completed := false })

/-- Loop body of SpatioIndexCore::bulk_insert: per element the same three
updates as insert, without touching the build flag. -/
def bulk_insert_loop (e : SpatioIndexCore α) :
    List (α × α × ℚ) → List ℕ × SpatioIndexCore α
  | [] => ([], e)
  | (la, lo, t) :: rest =>
    let step := e.record_store.add_record la lo t
    let e1 : SpatioIndexCore α :=
      { record_store := step.2,
        spatial_index := e.spatial_index.insert la lo step.1,
        temporal_index := e.temporal_index.insert t step.1,
        build_completed := e.build_completed }
    let tail := bulk_insert_loop e1 rest
    (step.1 :: tail.1, tail.2)

/-- SpatioIndexCore::bulk_insert (src/spatio_index_core.cpp): run the
loop, then set the build flag to false even for an empty batch. -/
def SpatioIndexCore.bulk_insert (e : SpatioIndexCore α)
    (records : List (α × α × ℚ)) : List ℕ × SpatioIndexCore α :=
  let run := bulk_insert_loop e records
  (run.1, { run.2 with build_completed := false })

/-- SpatioIndexCore::build (src/spatio_index_core.cpp): a no-op marker
that only sets the build flag. -/
def SpatioIndexCore.build (e : SpatioIndexCore α) : SpatioIndexCore α :=
  { e with build_completed := true }

/-- SpatioIndexCore::size. -/
def SpatioIndexCore.size (e : SpatioIndexCore α) : ℕ := e.record_store.size

/-- Modelled from the spec: RecordStore::get_record_ptr is declared and
called by the authoritative revision of the sources but its definition is
not under src/; section 4.1 specifies it as the same lookup as get_record
returning a non-owning borrow or none, so it is the option-valued lookup. -/
def SpatioIndexCore.get_record_ptr (e : SpatioIndexCore α) (id : ℕ) :
    Option (Record α) :=
  e.record_store.get_record id

/-- SpatioIndexCore::get_record (include/spatio_index_core.hpp). -/
def SpatioIndexCore.get_record (e : SpatioIndexCore α) (id : ℕ) :
    Option (Record α) :=
  e.get_record_ptr id

/-- SpatioIndexCore::query_radius (src/spatio_index_core.cpp). -/
def SpatioIndexCore.query_radius (hav : α → α → α → α → α)
    (e : SpatioIndexCore α) (center_lat center_lon radius_km : α) : List ℕ :=
  e.spatial_index.radius_query hav center_lat center_lon radius_km

/-- SpatioIndexCore::query_box (src/spatio_index_core.cpp). -/
def SpatioIndexCore.query_box (e : SpatioIndexCore α)
    (lat_min lon_min lat_max lon_max : α) : List ℕ :=
  e.spatial_index.box_query lat_min lon_min lat_max lon_max

/-- SpatioIndexCore::query_knn (src/spatio_index_core.cpp). -/
def SpatioIndexCore.query_knn (hav : α → α → α → α → α)
    (e : SpatioIndexCore α) (lat lon : α) (k : ℕ) : List ℕ :=
  e.spatial_index.knn_query hav lat lon k

/-- SpatioIndexCore::filter_by_time (src/spatio_index_core.cpp): keep the
candidates whose looked-up record exists and has a timestamp inside the
closed range, preserving order. -/
def SpatioIndexCore.filter_by_time (e : SpatioIndexCore α)
    (t_start t_end : ℚ) : List ℕ → List ℕ
  | [] => []
  | id :: rest =>
    match e.get_record_ptr id with
    | some record =>
      if t_start ≤ record.t ∧ record.t ≤ t_end then
        id :: e.filter_by_time t_start t_end rest
      else e.filter_by_time t_start t_end rest
    | none => e.filter_by_time t_start t_end rest

/-- SpatioIndexCore::filter_by_time_instrumented
(src/spatio_index_core.cpp): same filter, counting records that pass or
fail the time window. -/
def SpatioIndexCore.filter_by_time_instrumented (e : SpatioIndexCore α)
    (t_start t_end : ℚ) : List ℕ → QueryStats → List ℕ × QueryStats
  | [], stats => ([], stats)
  | id :: rest, stats =>
    match e.get_record_ptr id with
    | some record =>
      if t_start ≤ record.t ∧ record.t ≤ t_end then
        let tail := e.filter_by_time_instrumented t_start t_end rest
          { stats with records_passed_time_filter := stats.records_passed_time_filter + 1 }
        (id :: tail.1, tail.2)
      else
        e.filter_by_time_instrumented t_start t_end rest
          { stats with records_filtered_by_time := stats.records_filtered_by_time + 1 }
    | none => e.filter_by_time_instrumented t_start t_end rest stats

/-- SpatioIndexCore::query_radius_time (src/spatio_index_core.cpp): early
rejection against the temporal envelope, then the spatial query, then the
time filter. -/
def SpatioIndexCore.query_radius_time (hav : α → α → α → α → α)
    (e : SpatioIndexCore α) (center_lat center_lon radius_km : α)
    (t_start t_end : ℚ) : List ℕ :=
  if t_end < e.temporal_index.min_time ∨ t_start > e.temporal_index.max_time then []
  else e.filter_by_time t_start t_end
    (e.spatial_index.radius_query hav center_lat center_lon radius_km)

/-- SpatioIndexCore::query_box_time (src/spatio_index_core.cpp). -/
def SpatioIndexCore.query_box_time (e : SpatioIndexCore α)
    (lat_min lon_min lat_max lon_max : α) (t_start t_end : ℚ) : List ℕ :=
  if t_end < e.temporal_index.min_time ∨ t_start > e.temporal_index.max_time then []
  else e.filter_by_time t_start t_end
    (e.spatial_index.box_query lat_min lon_min lat_max lon_max)

/-- SpatioIndexCore::query_knn_time (src/spatio_index_core.cpp): early
rejection, fetch min(3k, N) spatial neighbors, filter by time, truncate
to k. -/
def SpatioIndexCore.query_knn_time (hav : α → α → α → α → α)
    (e : SpatioIndexCore α) (lat lon : α) (k : ℕ) (t_start t_end : ℚ) : List ℕ :=
  if t_end < e.temporal_index.min_time ∨ t_start > e.temporal_index.max_time then []
  else
    let fetch_k := min (k * 3) e.size
    if fetch_k = 0 then []
    else
      let spatial_ids := e.spatial_index.knn_query hav lat lon fetch_k
      let time_filtered := e.filter_by_time t_start t_end spatial_ids
      if time_filtered.length > k then time_filtered.take k else time_filtered

/-- SpatioIndexCore::query_radius_time_instrumented
(src/spatio_index_core.cpp): reset the statistics, reject early against
the envelope, otherwise run the instrumented spatial query, copy its
counters, filter with counting and record the result count. -/
def SpatioIndexCore.query_radius_time_instrumented (hav : α → α → α → α → α)
    (e : SpatioIndexCore α) (center_lat center_lon radius_km : α)
    (t_start t_end : ℚ) : List ℕ × QueryStats :=
  if t_end < e.temporal_index.min_time ∨ t_start > e.temporal_index.max_time then
    ([], QueryStats.zero)
  else
    let spatial := e.spatial_index.radius_query_instrumented hav
      center_lat center_lon radius_km
    let stats1 : QueryStats :=
      { QueryStats.zero with
        spatial_nodes_visited := spatial.2.nodes_visited,
        spatial_distance_checks := spatial.2.distance_checks,
        spatial_bbox_prunes := spatial.2.bbox_prunes,
        spatial_distance_prunes := spatial.2.distance_prunes }
    let run := e.filter_by_time_instrumented t_start t_end spatial.1 stats1
    (run.1, { run.2 with result_count := run.1.length })

/-- Shallow embedding of SpatioIndexCore::IndexStats. -/
structure IndexStats where
  total_records : ℕ
  spatial_nodes : ℕ
  temporal_entries : ℕ
  min_time : ℚ
  max_time : ℚ
  is_built : Bool
  deriving Repr, DecidableEq

/-- SpatioIndexCore::get_index_stats (src/spatio_index_core.cpp). -/
def SpatioIndexCore.get_index_stats (e : SpatioIndexCore α) : IndexStats :=
  { total_records := e.record_store.size,
    spatial_nodes := e.spatial_index.size,
    temporal_entries := e.temporal_index.size,
    min_time := e.temporal_index.min_time,
    max_time := e.temporal_index.max_time,
    is_built := e.build_completed }

/-- SpatioIndexCore::clear (src/spatio_index_core.cpp): clear all three
components and drop the build flag, giving back the freshly constructed
state. -/
def SpatioIndexCore.clear (e : SpatioIndexCore α) : SpatioIndexCore α :=
  { record_store := e.record_store.clear,
    spatial_index := e.spatial_index.clear,
    temporal_index := e.temporal_index.clear,
    build_completed := false }

/-- Engine state reached from the fresh engine by a sequence of insert
calls, one per listed (lat, lon, t) triple. -/
def buildCore : List (α × α × ℚ) → SpatioIndexCore α :=
  List.foldl (fun e r => (e.insert r.1 r.2.1 r.2.2).2) initialCore

/-- Points stored in a subtree, as (lat, lon, id) triples in preorder. -/
def treePoints : KDTree α → List (α × α × ℕ)
  | KDTree.nil => []
  | KDTree.node la lo id _ _ _ _ _ l r => (la, lo, id) :: (treePoints l ++ treePoints r)

/-- Number of nodes of a subtree. -/
def treeSize : KDTree α → ℕ
  | KDTree.nil => 0
  | KDTree.node _ _ _ _ _ _ _ _ l r => treeSize l + treeSize r + 1

/-- Two-argument arctangent on the ideal reals, with the case split of the
C library function atan2. -/
noncomputable def atan2 (y x : ℝ) : ℝ :=
  if 0 < x then Real.arctan (y / x)
  else if x < 0 ∧ 0 ≤ y then Real.arctan (y / x) + Real.pi
  else if x < 0 ∧ y < 0 then Real.arctan (y / x) - Real.pi
  else if x = 0 ∧ 0 < y then Real.pi / 2
  else if x = 0 ∧ y < 0 then -(Real.pi / 2)
  else 0

/-- haversine_distance (include/utils.hpp) on the ideal reals: great
circle distance in meters on a sphere of radius 6371000, from coordinates
in degrees. -/
noncomputable def haversine_distance (lat1 lon1 lat2 lon2 : ℝ) : ℝ :=
  let R : ℝ := 6371000
  let dlat := (lat2 - lat1) * Real.pi / 180
  let dlon := (lon2 - lon1) * Real.pi / 180
  let a := Real.sin (dlat / 2) * Real.sin (dlat / 2) +
    Real.cos (lat1 * Real.pi / 180) * Real.cos (lat2 * Real.pi / 180) *
    (Real.sin (dlon / 2) * Real.sin (dlon / 2))
  R * 2 * atan2 (Real.sqrt a) (Real.sqrt (1 - a))

/-- Identifiers handed out by the bulk-insert loop are consecutive from
the current next id. -/
theorem bulk_insert_loop_ids (rs : List (α × α × ℚ)) :
    ∀ e : SpatioIndexCore α,
      (bulk_insert_loop e rs).1 = List.range' e.record_store.next_id rs.length := by
  induction rs with
  | nil => intro e; rfl
  | cons hd tl ih =>
    intro e
    obtain ⟨la, lo, t⟩ := hd
    simp only [bulk_insert_loop, List.length_cons, List.range'_succ]
    exact congrArg _ (ih _)

/-- C8 (amended): after clear on any engine state, size is 0, the
envelope reverts to the sentinel values, and on the cleared engine the
time-range overlap check fails for every range with an end below the
double limit or a start above its negation, until the next insert (the
single range reaching both double limits is the exception, refuted
separately); the next insert returns identifier 1; in general an insert
returns the current next identifier and bumps it by one, and a sequence
of n inserts into a fresh engine is assigned the identifiers
1, 2, ..., n. -/
theorem clear_resets_and_ids_start_at_one (e : SpatioIndexCore α)
    (lat lon : α) (t : ℚ) (rs : List (α × α × ℚ)) :
    e.clear.size = 0 ∧
    e.clear.temporal_index.min_time = dblMax ∧
    e.clear.temporal_index.max_time = -dblMax ∧
    (∀ a b : ℚ, b < dblMax ∨ a > -dblMax →
      (b < e.clear.temporal_index.min_time ∨
        a > e.clear.temporal_index.max_time)) ∧
    (e.clear.insert lat lon t).1 = 1 ∧
    (e.insert lat lon t).1 = e.record_store.next_id ∧
    (e.insert lat lon t).2.record_store.next_id = e.record_store.next_id + 1 ∧
    ((initialCore (α := α)).bulk_insert rs).1 = List.range' 1 rs.length :=
  ⟨rfl, rfl, rfl, fun _ _ hab => hab, rfl, rfl, rfl,
    bulk_insert_loop_ids rs initialCore⟩

/-- Witness for clear_resets_and_ids_start_at_one: on a cleared one-record
engine the overlap check fires for the range up to 0. -/
theorem clear_resets_and_ids_witness :
    (0:ℚ) < (buildCore [((0:ℚ), 0, (5:ℚ))]).clear.temporal_index.min_time ∨
      (0:ℚ) > (buildCore [((0:ℚ), 0, (5:ℚ))]).clear.temporal_index.max_time :=
  (clear_resets_and_ids_start_at_one (buildCore [((0:ℚ), 0, (5:ℚ))])
    0 0 0 []).2.2.2.1 0 0 (Or.inl (by norm_num [dblMax]))

/-- C8 counterexample: right after clear, before any insert, the overlap
check does not fail for the time range reaching both double limits, so
the sentinel envelope does not make every subsequent time-range overlap
check fail. -/
theorem clear_envelope_not_reject_extreme_range :
    ¬ (dblMax < (buildCore [((0:ℚ), 0, (5:ℚ))]).clear.temporal_index.min_time ∨
      -dblMax > (buildCore [((0:ℚ), 0, (5:ℚ))]).clear.temporal_index.max_time) := by
  simp [SpatioIndexCore.clear, TemporalIndex.clear, TemporalIndex.empty]

/-- C10: any insert or bulk_insert (also of an empty batch) leaves the
is_built flag reported by get_index_stats false, and build sets it to
true. -/
theorem insert_clears_build_flag (e : SpatioIndexCore α) (lat lon : α)
    (t : ℚ) (rs : List (α × α × ℚ)) :
    (e.insert lat lon t).2.get_index_stats.is_built = false ∧
    (e.bulk_insert rs).2.get_index_stats.is_built = false ∧
    (e.bulk_insert []).2.get_index_stats.is_built = false ∧
    e.build.get_index_stats.is_built = true :=
  ⟨rfl, rfl, rfl, rfl⟩

/-- Instrumented and plain radius traversals return the same identifier
sequence, for any distance function and any statistics accumulator. -/
theorem radius_instrumented_results_eq (hav : α → α → α → α → α)
    (clat clon rm : α) :
    ∀ (t : KDTree α) (stats : SpatialQueryStats),
      (radius_query_instrumented_recursive hav clat clon rm t stats).1 =
        radius_query_recursive hav clat clon rm t := by
  intro t
  induction t with
  | nil => intro stats; rfl
  | node nlat nlon nid ax mnla mxla mnlo mxlo l r ihl ihr =>
    intro stats
    simp only [radius_query_instrumented_recursive, radius_query_recursive]
    split_ifs <;> simp_all

/-- Instrumented and plain time filters return the same identifier
sequence. -/
theorem filter_instrumented_results_eq (e : SpatioIndexCore α)
    (t_start t_end : ℚ) :
    ∀ (ids : List ℕ) (stats : QueryStats),
      (e.filter_by_time_instrumented t_start t_end ids stats).1 =
        e.filter_by_time t_start t_end ids := by
  intro ids
  induction ids with
  | nil => intro stats; rfl
  | cons id rest ih =>
    intro stats
    simp only [SpatioIndexCore.filter_by_time_instrumented,
      SpatioIndexCore.filter_by_time]
    cases e.get_record_ptr id with
    | none => exact ih stats
    | some record =>
      dsimp only
      split_ifs <;> simp [ih]

/-- C9: the instrumented radius queries return exactly the identifier
sequence of the corresponding non-instrumented queries, both at the
spatial tree level and at the coordinator level; the statistics only
ride along. -/
theorem instrumented_queries_match (hav : α → α → α → α → α)
    (si : SpatialIndex α) (e : SpatioIndexCore α)
    (center_lat center_lon radius_km : α) (t_start t_end : ℚ) :
    (si.radius_query_instrumented hav center_lat center_lon radius_km).1 =
      si.radius_query hav center_lat center_lon radius_km ∧
    (e.query_radius_time_instrumented hav center_lat center_lon radius_km
        t_start t_end).1 =
      e.query_radius_time hav center_lat center_lon radius_km t_start t_end := by
  constructor
  · exact radius_instrumented_results_eq hav center_lat center_lon _ si.root _
  · simp only [SpatioIndexCore.query_radius_time_instrumented,
      SpatioIndexCore.query_radius_time]
    split_ifs with h
    · rfl
    · simp only [SpatialIndex.radius_query_instrumented, SpatialIndex.radius_query,
        filter_instrumented_results_eq, radius_instrumented_results_eq]

/-- C5 (amended): a time-filtered query whose range lies outside the
temporal envelope returns empty, and the instrumented variant reports
zero spatial nodes visited; on the empty engine every time range yields
the empty result with zero spatial nodes visited, the rejection test
itself firing except for a range reaching both double limit sentinels. -/
theorem envelope_rejection_empty (hav : α → α → α → α → α)
    (e : SpatioIndexCore α)
    (center_lat center_lon radius_km lat_min lon_min lat_max lon_max
      qlat qlon : α) (k : ℕ) (t_start t_end : ℚ)
    (h : t_end < e.temporal_index.min_time ∨
      t_start > e.temporal_index.max_time) :
    e.query_radius_time hav center_lat center_lon radius_km t_start t_end = [] ∧
    e.query_box_time lat_min lon_min lat_max lon_max t_start t_end = [] ∧
    e.query_knn_time hav qlat qlon k t_start t_end = [] ∧
    e.query_radius_time_instrumented hav center_lat center_lon radius_km
      t_start t_end = ([], QueryStats.zero) ∧
    (∀ a b : ℚ,
      (initialCore (α := α)).query_radius_time_instrumented hav center_lat
        center_lon radius_km a b = ([], QueryStats.zero)) ∧
    (∀ a b : ℚ, b < dblMax ∨ a > -dblMax →
      (b < (initialCore (α := α)).temporal_index.min_time ∨
        a > (initialCore (α := α)).temporal_index.max_time)) := by
  refine ⟨?_, ?_, ?_, ?_, ?_, ?_⟩
  · simp [SpatioIndexCore.query_radius_time, h]
  · simp [SpatioIndexCore.query_box_time, h]
  · simp [SpatioIndexCore.query_knn_time, h]
  · simp [SpatioIndexCore.query_radius_time_instrumented, h]
  · intro a b
    simp only [SpatioIndexCore.query_radius_time_instrumented]
    split_ifs
    · rfl
    · rfl
  · intro a b hab
    exact hab

/-- Witness for envelope_rejection_empty at a concrete engine and range. -/
theorem envelope_rejection_empty_witness :
    SpatioIndexCore.query_radius_time (fun _ _ _ _ => (0 : ℚ))
      (buildCore [((0 : ℚ), 0, 5)]) 0 0 1 0 1 = [] ∧
    SpatioIndexCore.query_box_time (buildCore [((0 : ℚ), 0, 5)])
      0 0 1 1 0 1 = [] ∧
    SpatioIndexCore.query_knn_time (fun _ _ _ _ => (0 : ℚ))
      (buildCore [((0 : ℚ), 0, 5)]) 0 0 2 0 1 = [] ∧
    SpatioIndexCore.query_radius_time_instrumented (fun _ _ _ _ => (0 : ℚ))
      (buildCore [((0 : ℚ), 0, 5)]) 0 0 1 0 1 = ([], QueryStats.zero) ∧
    (∀ a b : ℚ,
      (initialCore (α := ℚ)).query_radius_time_instrumented
        (fun _ _ _ _ => (0 : ℚ)) 0 0 1 a b = ([], QueryStats.zero)) ∧
    (∀ a b : ℚ, b < dblMax ∨ a > -dblMax →
      (b < (initialCore (α := ℚ)).temporal_index.min_time ∨
        a > (initialCore (α := ℚ)).temporal_index.max_time)) :=
  envelope_rejection_empty (fun _ _ _ _ => (0 : ℚ))
    (buildCore [((0 : ℚ), 0, 5)]) 0 0 1 0 0 1 1 0 0 2 0 1
    (Or.inl (by norm_num [buildCore, initialCore, SpatioIndexCore.insert,
      TemporalIndex.insert, TemporalIndex.empty, dblMax]))

/-- C5 counterexample: on the empty engine the sentinel envelope does not
make the rejection test fire for the time range reaching both double
limits, refuting the for-every-time-range clause. -/
theorem envelope_rejection_counterexample :
    ¬ (dblMax < (initialCore (α := ℚ)).temporal_index.min_time ∨
      -dblMax > (initialCore (α := ℚ)).temporal_index.max_time) := by
  simp [initialCore, TemporalIndex.empty]

/-- Envelope tightness: every stored record timestamp lies inside the
temporal envelope (the direction of invariant I4 the queries rely on). -/
def envelopeOK (e : SpatioIndexCore α) : Prop :=
  ∀ rec ∈ e.record_store.records,
    e.temporal_index.min_time ≤ rec.t ∧ rec.t ≤ e.temporal_index.max_time

/-- Inserting preserves envelope tightness. -/
theorem envelopeOK_insert (e : SpatioIndexCore α) (lat lon : α) (t : ℚ)
    (h : envelopeOK e) : envelopeOK (e.insert lat lon t).2 := by
  intro rec hrec
  simp only [SpatioIndexCore.insert, RecordStore.add_record, List.mem_append,
    List.mem_singleton] at hrec
  simp only [SpatioIndexCore.insert, TemporalIndex.insert]
  rcases hrec with hmem | rfl
  · have hrec2 := h rec hmem
    exact ⟨le_trans (min_le_left _ _) hrec2.1, le_trans hrec2.2 (le_max_left _ _)⟩
  · exact ⟨min_le_right _ _, le_max_right _ _⟩

/-- Every engine reached by a sequence of inserts has a tight envelope. -/
theorem envelopeOK_buildCore (rs : List (α × α × ℚ)) :
    envelopeOK (buildCore rs) := by
  have main : ∀ (l : List (α × α × ℚ)) (e : SpatioIndexCore α), envelopeOK e →
      envelopeOK (List.foldl (fun e r => (e.insert r.1 r.2.1 r.2.2).2) e l) := by
    intro l
    induction l with
    | nil => intro e he; exact he
    | cons hd tl ih => intro e he; exact ih _ (envelopeOK_insert e _ _ _ he)
  refine main rs initialCore ?_
  intro rec hrec
  simp [initialCore] at hrec

/-- A successful record lookup returns a stored record. -/
theorem get_record_mem (s : RecordStore α) (id : ℕ) (rec : Record α)
    (h : s.get_record id = some rec) : rec ∈ s.records := by
  unfold RecordStore.get_record at h
  cases hl : s.id_to_index.lookup id with
  | none => rw [hl] at h; exact absurd h (by simp)
  | some index =>
    rw [hl] at h
    exact List.getElem?_mem h

/-- When the query range misses the envelope, the time filter rejects
every candidate of a tight-envelope engine. -/
theorem filter_by_time_outside_envelope (e : SpatioIndexCore α)
    (t_start t_end : ℚ) (he : envelopeOK e)
    (h : t_end < e.temporal_index.min_time ∨
      t_start > e.temporal_index.max_time) :
    ∀ ids : List ℕ, e.filter_by_time t_start t_end ids = [] := by
  intro ids
  induction ids with
  | nil => rfl
  | cons id rest ih =>
    simp only [SpatioIndexCore.filter_by_time]
    cases hrec : e.get_record_ptr id with
    | none => exact ih
    | some rec =>
      dsimp only
      rw [if_neg, ih]
      rintro ⟨h1, h2⟩
      have hmem : rec ∈ e.record_store.records := get_record_mem _ _ _ hrec
      have henv := he rec hmem
      rcases h with hlt | hgt
      · exact absurd (le_trans henv.1 h2) (not_le.mpr hlt)
      · exact absurd (le_trans h1 henv.2) (not_le.mpr hgt)

/-- C4: on any engine reached by inserts, the combined radius-and-time
query equals the plain radius query filtered by the record timestamps in
the closed time range, in spatial traversal order, also when the early
envelope rejection fires. -/
theorem query_radius_time_eq_filtered (hav : α → α → α → α → α)
    (rs : List (α × α × ℚ)) (center_lat center_lon radius_km : α)
    (t_start t_end : ℚ) :
    SpatioIndexCore.query_radius_time hav (buildCore rs) center_lat center_lon
        radius_km t_start t_end =
      SpatioIndexCore.filter_by_time (buildCore rs) t_start t_end
        (SpatioIndexCore.query_radius hav (buildCore rs) center_lat center_lon
          radius_km) := by
  simp only [SpatioIndexCore.query_radius_time, SpatioIndexCore.query_radius]
  split_ifs with h
  · exact
      (filter_by_time_outside_envelope _ _ _ (envelopeOK_buildCore rs) h _).symm
  · rfl

/-- The worst distance of a nonempty candidate list is attained. -/
theorem worstDistance_attained :
    ∀ l : List (KNNCandidate α), l ≠ [] →
      ∃ c ∈ l, c.distance = worstDistance l
  | [], h => absurd rfl h
  | [c], _ => ⟨c, by simp, rfl⟩
  | c :: d :: rest, _ => by
    obtain ⟨e, he, heq⟩ := worstDistance_attained (d :: rest) (by simp)
    have hw : worstDistance (c :: d :: rest) =
        max c.distance (worstDistance (d :: rest)) := rfl
    by_cases hcd : c.distance ≤ worstDistance (d :: rest)
    · exact ⟨e, List.mem_cons_of_mem c he, by rw [heq, hw, max_eq_right hcd]⟩
    · exact ⟨c, List.mem_cons_self c _, by rw [hw, max_eq_left (le_of_not_le hcd)]⟩

/-- Removing an attained distance shortens the list by exactly one. -/
theorem removeWorst_length :
    ∀ (l : List (KNNCandidate α)) (w : α), (∃ c ∈ l, c.distance = w) →
      (removeWorst w l).length + 1 = l.length
  | [], w, h => by simp at h
  | c :: rest, w, h => by
    simp only [removeWorst]
    split_ifs with hc
    · simp
    · obtain ⟨d, hd, hdeq⟩ := h
      rcases List.mem_cons.mp hd with rfl | hdrest
      · exact absurd hdeq hc
      · simp only [List.length_cons]
        rw [← removeWorst_length rest w ⟨d, hdrest, hdeq⟩]

/-- The candidate update step takes a list of length at most k to a list
of length min k (length + 1). -/
theorem knn_push_length (k : ℕ) (hk : 0 < k) (c : List (KNNCandidate α))
    (hc : c.length ≤ k) (nid : ℕ) (dist : α) :
    (knn_push k nid dist c).length = min k (c.length + 1) := by
  unfold knn_push
  split_ifs with h1 h2
  · simp only [List.length_cons]; omega
  · have hck : c.length = k := le_antisymm hc (not_lt.mp h1)
    have hne : c ≠ [] := by
      intro hnil
      rw [hnil] at hck
      simp at hck
      omega
    obtain ⟨cw, hcw, hcweq⟩ := worstDistance_attained c hne
    have hrem := removeWorst_length c (worstDistance c) ⟨cw, hcw, hcweq⟩
    simp only [List.length_cons]
    omega
  · have hck : c.length = k := le_antisymm hc (not_lt.mp h1)
    omega

/-- The k-NN recursion grows the candidate list to min k (length + subtree
size): the far side is always explored while the heap is not full, and a
full heap only ever has candidates replaced. -/
theorem knn_recursive_length (hav : α → α → α → α → α) (qlat qlon : α)
    (k : ℕ) (hk : 0 < k) :
    ∀ (t : KDTree α) (c : List (KNNCandidate α)), c.length ≤ k →
      (knn_recursive hav qlat qlon k t c).length =
        min k (c.length + treeSize t) := by
  intro t
  induction t with
  | nil =>
    intro c hc
    simp only [knn_recursive, treeSize]
    omega
  | node nlat nlon nid ax mnla mxla mnlo mxlo l r ihl ihr =>
    intro c hc
    simp only [knn_recursive, treeSize]
    have h1 := knn_push_length k hk c hc nid (hav qlat qlon nlat nlon)
    set c1 := knn_push k nid (hav qlat qlon nlat nlon) c with hc1def
    have hc1 : c1.length ≤ k := by omega
    have h2l := ihl c1 hc1
    have h2r := ihr c1 hc1
    have h3 := ihr (knn_recursive hav qlat qlon k l c1) (by omega)
    have h3b := ihl (knn_recursive hav qlat qlon k r c1) (by omega)
    split_ifs <;> omega

/-- Updating bounds does not change the node count. -/
theorem treeSize_update_bounds (t : KDTree α) :
    treeSize t.update_bounds = treeSize t := by
  cases t <;> rfl

/-- Insertion adds exactly one node. -/
theorem treeSize_insert_recursive (lat lon : α) (id : ℕ) :
    ∀ (d : ℕ) (t : KDTree α),
      treeSize (insert_recursive lat lon id d t) = treeSize t + 1 := by
  intro d t
  induction t generalizing d with
  | nil => rfl
  | node nlat nlon nid ax mnla mxla mnlo mxlo l r ihl ihr =>
    simp only [insert_recursive]
    split_ifs <;> (rw [treeSize_update_bounds]; simp only [treeSize, ihl, ihr]; omega)

/-- Record count, spatial size counter and spatial node count all agree
with the number of inserted records. -/
theorem buildCore_sizes (rs : List (α × α × ℚ)) :
    (buildCore (α := α) rs).record_store.records.length = rs.length ∧
    (buildCore (α := α) rs).spatial_index.size = rs.length ∧
    treeSize (buildCore (α := α) rs).spatial_index.root = rs.length := by
  have main : ∀ (l : List (α × α × ℚ)) (e : SpatioIndexCore α),
      (List.foldl (fun e r => (e.insert r.1 r.2.1 r.2.2).2) e l).record_store.records.length =
          e.record_store.records.length + l.length ∧
        (List.foldl (fun e r => (e.insert r.1 r.2.1 r.2.2).2) e l).spatial_index.size =
          e.spatial_index.size + l.length ∧
        treeSize (List.foldl (fun e r => (e.insert r.1 r.2.1 r.2.2).2) e l).spatial_index.root =
          treeSize e.spatial_index.root + l.length := by
    intro l
    induction l with
    | nil => intro e; exact ⟨rfl, rfl, rfl⟩
    | cons hd tl ih =>
      intro e
      set e1 := (e.insert hd.1 hd.2.1 hd.2.2).2 with he1
      obtain ⟨ha, hb, hc⟩ := ih e1
      have h1 : e1.record_store.records.length = e.record_store.records.length + 1 := by
        simp [he1, SpatioIndexCore.insert, RecordStore.add_record]
      have h2 : e1.spatial_index.size = e.spatial_index.size + 1 := by
        simp [he1, SpatioIndexCore.insert, SpatialIndex.insert]
      have h3 : treeSize e1.spatial_index.root = treeSize e.spatial_index.root + 1 := by
        simp [he1, SpatioIndexCore.insert, SpatialIndex.insert,
          treeSize_insert_recursive]
      refine ⟨?_, ?_, ?_⟩ <;>
        (simp only [List.foldl_cons]; rw [← he1]; simp only [List.length_cons]; omega)
  have h := main rs initialCore
  simpa [buildCore, initialCore, treeSize] using h

/-- A subtree with no nodes is the null tree. -/
theorem treeSize_eq_zero (t : KDTree α) (h : treeSize t = 0) :
    t = KDTree.nil := by
  cases t with
  | nil => rfl
  | node nlat nlon nid ax mnla mxla mnlo mxlo l r => simp [treeSize] at h

/-- C3: on any engine reached by inserts, the k-NN-with-time query equals
the plain spatial k-NN query for min(3k, N) neighbors, filtered by the
time range via the record table and truncated to the first k survivors;
it is empty when k = 0 or the engine is empty, and never longer than k. -/
theorem query_knn_time_spec (hav : α → α → α → α → α)
    (rs : List (α × α × ℚ)) (qlat qlon : α) (k : ℕ) (t_start t_end : ℚ) :
    SpatioIndexCore.query_knn_time hav (buildCore rs) qlat qlon k t_start t_end =
      (SpatioIndexCore.filter_by_time (buildCore rs) t_start t_end
        (SpatioIndexCore.query_knn hav (buildCore rs) qlat qlon
          (min (k * 3) (buildCore (α := α) rs).size))).take k ∧
    SpatioIndexCore.query_knn_time hav (buildCore rs) qlat qlon 0 t_start t_end = [] ∧
    SpatioIndexCore.query_knn_time hav (buildCore ([] : List (α × α × ℚ)))
      qlat qlon k t_start t_end = [] ∧
    (SpatioIndexCore.query_knn_time hav (buildCore rs) qlat qlon k
      t_start t_end).length ≤ k := by
  have hmain : ∀ k : ℕ,
      SpatioIndexCore.query_knn_time hav (buildCore rs) qlat qlon k t_start t_end =
        (SpatioIndexCore.filter_by_time (buildCore rs) t_start t_end
          (SpatioIndexCore.query_knn hav (buildCore rs) qlat qlon
            (min (k * 3) (buildCore (α := α) rs).size))).take k := by
    intro k
    simp only [SpatioIndexCore.query_knn_time, SpatioIndexCore.query_knn]
    split_ifs with hrej h0 hlong
    · rw [filter_by_time_outside_envelope _ _ _ (envelopeOK_buildCore rs) hrej]
      simp
    · have hcase : k * 3 = 0 ∨ (buildCore (α := α) rs).size = 0 := by omega
      rcases hcase with h3k | hsz
      · have hk0 : k = 0 := by omega
        subst hk0
        simp [SpatialIndex.knn_query, SpatioIndexCore.filter_by_time]
      · have hroot : (buildCore (α := α) rs).spatial_index.root = KDTree.nil := by
          refine treeSize_eq_zero _ ?_
          have hs := buildCore_sizes (α := α) rs
          simp only [SpatioIndexCore.size, RecordStore.size] at hsz
          omega
        rw [SpatialIndex.knn_query, if_pos (Or.inr hroot)]
        simp [SpatioIndexCore.filter_by_time]
    · rfl
    · exact (List.take_of_length_le (not_lt.mp hlong)).symm
  refine ⟨hmain k, ?_, ?_, ?_⟩
  · rw [hmain 0]
    simp
  · simp only [SpatioIndexCore.query_knn_time]
    split_ifs with hrej h0 hlen
    · rfl
    · rfl
    all_goals
      exfalso
      have hs := buildCore_sizes (α := α) ([] : List (α × α × ℚ))
      simp only [SpatioIndexCore.size, RecordStore.size] at h0
      simp only [List.length_nil] at hs
      omega
  · rw [hmain k]
    exact List.length_take_le k _

/-- Updating bounds does not change the stored points. -/
theorem treePoints_update_bounds (t : KDTree α) :
    treePoints t.update_bounds = treePoints t := by
  cases t <;> rfl

/-- Insertion adds exactly the new point to the subtree contents. -/
theorem treePoints_insert_perm (la lo : α) (id : ℕ) :
    ∀ (d : ℕ) (t : KDTree α),
      (treePoints (insert_recursive la lo id d t)).Perm
        ((la, lo, id) :: treePoints t) := by
  intro d t
  induction t generalizing d with
  | nil => simp [insert_recursive, treePoints]
  | node nlat nlon nid ax mnla mxla mnlo mxlo l r ihl ihr =>
    simp only [insert_recursive]
    split_ifs
    · rw [treePoints_update_bounds]
      simp only [treePoints]
      refine List.Perm.trans (((ihl (d + 1)).append_right _).cons _) ?_
      exact List.Perm.swap _ _ _
    · rw [treePoints_update_bounds]
      simp only [treePoints]
      refine List.Perm.trans ((List.Perm.append_left _ (ihr (d + 1))).cons _) ?_
      refine List.Perm.trans (List.Perm.cons _ List.perm_middle) ?_
      exact List.Perm.swap _ _ _
    · rw [treePoints_update_bounds]
      simp only [treePoints]
      refine List.Perm.trans (((ihl (d + 1)).append_right _).cons _) ?_
      exact List.Perm.swap _ _ _
    · rw [treePoints_update_bounds]
      simp only [treePoints]
      refine List.Perm.trans ((List.Perm.append_left _ (ihr (d + 1))).cons _) ?_
      refine List.Perm.trans (List.Perm.cons _ List.perm_middle) ?_
      exact List.Perm.swap _ _ _

/-- Coordinate of a stored point on a split axis: latitude on axis 0,
longitude otherwise. -/
def pointOn (ax : ℕ) (p : α × α × ℕ) : α := if ax = 0 then p.1 else p.2.1

/-- Split ordering and axis alternation check (invariant I3): at each
node the axis is depth mod 2, every left-subtree point is strictly below
the split value on the split axis, every right-subtree point is at or
above it. -/
def checkSplit : ℕ → KDTree α → Bool
  | _, KDTree.nil => true
  | d, KDTree.node la lo id ax mnla mxla mnlo mxlo l r =>
    decide (ax = d % 2) &&
    (treePoints l).all (fun p => decide (pointOn ax p < pointOn ax (la, lo, id))) &&
    (treePoints r).all (fun p => decide (pointOn ax (la, lo, id) ≤ pointOn ax p)) &&
    checkSplit (d + 1) l && checkSplit (d + 1) r

/-- Updating bounds does not change the split ordering check. -/
theorem checkSplit_update_bounds (d : ℕ) (t : KDTree α) :
    checkSplit d t.update_bounds = checkSplit d t := by
  cases t <;> rfl

/-- Insertion at the matching depth preserves the split ordering check. -/
theorem checkSplit_insert (la lo : α) (id : ℕ) :
    ∀ (t : KDTree α) (d : ℕ), checkSplit d t = true →
      checkSplit d (insert_recursive la lo id d t) = true := by
  intro t
  induction t with
  | nil =>
    intro d h
    simp [insert_recursive, checkSplit, treePoints]
  | node nlat nlon nid ax mnla mxla mnlo mxlo l r ihl ihr =>
    intro d h
    simp only [checkSplit, Bool.and_eq_true, List.all_eq_true,
      decide_eq_true_eq] at h
    obtain ⟨⟨⟨⟨hax, hleft⟩, hright⟩, hcl⟩, hcr⟩ := h
    simp only [insert_recursive]
    split_ifs with hax0 h1 h2
    · have hperm := treePoints_insert_perm la lo id (d + 1) l
      rw [checkSplit_update_bounds]
      simp only [checkSplit, Bool.and_eq_true, List.all_eq_true,
        decide_eq_true_eq]
      refine ⟨⟨⟨⟨hax, ?_⟩, hright⟩, ihl _ hcl⟩, hcr⟩
      intro p hp
      rcases List.mem_cons.mp (hperm.mem_iff.mp hp) with rfl | hold
      · simpa [pointOn, hax0] using h1
      · exact hleft p hold
    · have hperm := treePoints_insert_perm la lo id (d + 1) r
      rw [checkSplit_update_bounds]
      simp only [checkSplit, Bool.and_eq_true, List.all_eq_true,
        decide_eq_true_eq]
      refine ⟨⟨⟨⟨hax, hleft⟩, ?_⟩, hcl⟩, ihr _ hcr⟩
      intro p hp
      rcases List.mem_cons.mp (hperm.mem_iff.mp hp) with rfl | hold
      · simpa [pointOn, hax0] using not_lt.mp h1
      · exact hright p hold
    · have hperm := treePoints_insert_perm la lo id (d + 1) l
      rw [checkSplit_update_bounds]
      simp only [checkSplit, Bool.and_eq_true, List.all_eq_true,
        decide_eq_true_eq]
      refine ⟨⟨⟨⟨hax, ?_⟩, hright⟩, ihl _ hcl⟩, hcr⟩
      intro p hp
      rcases List.mem_cons.mp (hperm.mem_iff.mp hp) with rfl | hold
      · simpa [pointOn, hax0] using h2
      · exact hleft p hold
    · have hperm := treePoints_insert_perm la lo id (d + 1) r
      rw [checkSplit_update_bounds]
      simp only [checkSplit, Bool.and_eq_true, List.all_eq_true,
        decide_eq_true_eq]
      refine ⟨⟨⟨⟨hax, hleft⟩, ?_⟩, hcl⟩, ihr _ hcr⟩
      intro p hp
      rcases List.mem_cons.mp (hperm.mem_iff.mp hp) with rfl | hold
      · simpa [pointOn, hax0] using not_lt.mp h2
      · exact hright p hold

/-- C7: after every insertion sequence the tree satisfies the split
ordering invariant with axis d mod 2 at depth d, and an insertion whose
coordinate on the node axis equals the node value descends into the right
subtree (ties go right). -/
theorem split_ordering_invariant (rs : List (α × α × ℚ)) (la lo nlon nlat : α)
    (nid id2 d : ℕ) (b1 b2 b3 b4 : α) (l r : KDTree α) :
    checkSplit 0 (buildCore (α := α) rs).spatial_index.root = true ∧
    insert_recursive la lo id2 d (KDTree.node la nlon nid 0 b1 b2 b3 b4 l r) =
      KDTree.update_bounds (KDTree.node la nlon nid 0 b1 b2 b3 b4 l
        (insert_recursive la lo id2 (d + 1) r)) ∧
    insert_recursive la lo id2 d (KDTree.node nlat lo nid 1 b1 b2 b3 b4 l r) =
      KDTree.update_bounds (KDTree.node nlat lo nid 1 b1 b2 b3 b4 l
        (insert_recursive la lo id2 (d + 1) r)) := by
  refine ⟨?_, ?_, ?_⟩
  · have main : ∀ (ll : List (α × α × ℚ)) (e : SpatioIndexCore α),
        checkSplit 0 e.spatial_index.root = true →
        checkSplit 0 (List.foldl (fun e r => (e.insert r.1 r.2.1 r.2.2).2)
          e ll).spatial_index.root = true := by
      intro ll
      induction ll with
      | nil => intro e he; exact he
      | cons hd tl ih =>
        intro e he
        refine ih _ ?_
        simp only [SpatioIndexCore.insert, SpatialIndex.insert]
        exact checkSplit_insert _ _ _ _ 0 he
    exact main rs initialCore rfl
  · simp [insert_recursive]
  · simp [insert_recursive]
/-- C2 (amended): on any engine reached by inserts, query_knn returns
exactly min(k, N) identifiers, the empty list for k = 0 or an empty
engine; the distance-dominance clause of the original claim fails near
the poles and is refuted separately. -/
theorem query_knn_size (hav : α → α → α → α → α) (rs : List (α × α × ℚ))
    (qlat qlon : α) (k : ℕ) :
    (SpatioIndexCore.query_knn hav (buildCore rs) qlat qlon k).length =
      min k (buildCore (α := α) rs).size ∧
    SpatioIndexCore.query_knn hav (buildCore rs) qlat qlon 0 = [] ∧
    SpatioIndexCore.query_knn hav (buildCore ([] : List (α × α × ℚ)))
      qlat qlon k = [] := by
  obtain ⟨h1, h2, h3⟩ := buildCore_sizes (α := α) rs
  have hsize : (buildCore (α := α) rs).size = rs.length := h1
  refine ⟨?_, ?_, ?_⟩
  · simp only [SpatioIndexCore.query_knn, SpatialIndex.knn_query]
    split_ifs with h
    · rcases h with hk0 | hnil
      · subst hk0
        simp
      · rw [hnil] at h3
        simp only [treeSize] at h3
        simp [hsize, ← h3]
    · rw [not_or] at h
      rw [List.length_map]
      rw [knn_recursive_length hav qlat qlon k (Nat.pos_of_ne_zero h.1) _ []
        (by simp)]
      simp only [List.length_nil, Nat.zero_add]
      rw [h3, hsize]
  · simp [SpatioIndexCore.query_knn, SpatialIndex.knn_query]
  · simp only [SpatioIndexCore.query_knn, SpatialIndex.knn_query]
    have hroot : (buildCore (α := α) ([] : List (α × α × ℚ))).spatial_index.root =
        KDTree.nil := rfl
    rw [if_pos (Or.inr hroot)]

/-- A point lies inside a bounding box. -/
def pointIn (p : α × α × ℕ) (b : Box α) : Prop :=
  b.min_lat ≤ p.1 ∧ p.1 ≤ b.max_lat ∧ b.min_lon ≤ p.2.1 ∧ p.2.1 ≤ b.max_lon

/-- The first box lies inside the second. -/
def boxWithin (b c : Box α) : Prop :=
  c.min_lat ≤ b.min_lat ∧ b.max_lat ≤ c.max_lat ∧
  c.min_lon ≤ b.min_lon ∧ b.max_lon ≤ c.max_lon

/-- Stored bounding box of a node; the null tree gets a dummy box. -/
def rootBox : KDTree α → Box α
  | KDTree.nil => ⟨0, 0, 0, 0⟩
  | KDTree.node _ _ _ _ mnla mxla mnlo mxlo _ _ => ⟨mnla, mxla, mnlo, mxlo⟩

/-- Bounds coverage (invariant I2) at the tree level: every subtree point
lies inside the bounding box stored at every node above it. -/
def coverage : KDTree α → Prop
  | KDTree.nil => True
  | KDTree.node la lo id ax mnla mxla mnlo mxlo l r =>
    (∀ p ∈ treePoints (KDTree.node la lo id ax mnla mxla mnlo mxlo l r),
      pointIn p ⟨mnla, mxla, mnlo, mxlo⟩) ∧ coverage l ∧ coverage r

/-- Containment of boxes is transitive. -/
theorem boxWithin_trans {b c d : Box α} (h1 : boxWithin b c)
    (h2 : boxWithin c d) : boxWithin b d := by
  obtain ⟨a1, a2, a3, a4⟩ := h1
  obtain ⟨b1, b2, b3, b4⟩ := h2
  exact ⟨le_trans b1 a1, le_trans a2 b2, le_trans b3 a3, le_trans a4 b4⟩

/-- A point inside a box stays inside any containing box. -/
theorem pointIn_mono {p : α × α × ℕ} {b c : Box α} (h1 : pointIn p b)
    (h2 : boxWithin b c) : pointIn p c := by
  obtain ⟨a1, a2, a3, a4⟩ := h1
  obtain ⟨b1, b2, b3, b4⟩ := h2
  exact ⟨le_trans b1 a1, le_trans a2 b2, le_trans b3 a3, le_trans a4 b4⟩

/-- Widening a box keeps the original box inside. -/
theorem boxWithin_extendBox (b : Box α) (t : KDTree α) :
    boxWithin b (extendBox b t) := by
  cases t with
  | nil => exact ⟨le_refl _, le_refl _, le_refl _, le_refl _⟩
  | node nlat nlon nid ax mnla mxla mnlo mxlo l r =>
    exact ⟨min_le_left _ _, le_max_left _ _, min_le_left _ _, le_max_left _ _⟩

/-- Widening a box by a present child covers the child box. -/
theorem boxWithin_extendBox_child (b : Box α) (t : KDTree α)
    (h : t ≠ KDTree.nil) : boxWithin (rootBox t) (extendBox b t) := by
  cases t with
  | nil => exact absurd rfl h
  | node nlat nlon nid ax mnla mxla mnlo mxlo l r =>
    exact ⟨min_le_right _ _, le_max_right _ _, min_le_right _ _, le_max_right _ _⟩

/-- An insertion never produces the null tree. -/
theorem insert_recursive_ne_nil (la lo : α) (id : ℕ) (d : ℕ) (t : KDTree α) :
    insert_recursive la lo id d t ≠ KDTree.nil := by
  cases t with
  | nil => simp [insert_recursive]
  | node nlat nlon nid ax mnla mxla mnlo mxlo l r =>
    simp only [insert_recursive]
    split_ifs <;> simp [KDTree.update_bounds]

/-- On a covered tree without null root, all subtree points lie inside
the root box. -/
theorem coverage_points {t : KDTree α} (hne : t ≠ KDTree.nil)
    (hc : coverage t) : ∀ p ∈ treePoints t, pointIn p (rootBox t) := by
  cases t with
  | nil => exact absurd rfl hne
  | node nlat nlon nid ax mnla mxla mnlo mxlo l r => exact hc.1

/-- Insertion preserves bounds coverage: the bounds update on the path
back up widens each visited box to cover the modified child. -/
theorem coverage_insert (la lo : α) (id : ℕ) :
    ∀ (d : ℕ) (t : KDTree α), coverage t →
      coverage (insert_recursive la lo id d t) := by
  intro d t
  induction t generalizing d with
  | nil =>
    intro hc
    simp only [insert_recursive, coverage, treePoints]
    refine ⟨?_, trivial, trivial⟩
    intro p hp
    simp only [List.mem_singleton, List.append_nil] at hp
    rw [hp]
    exact ⟨le_refl _, le_refl _, le_refl _, le_refl _⟩
  | node nlat nlon nid ax mnla mxla mnlo mxlo l r ihl ihr =>
    intro hc
    obtain ⟨hpts, hcovl, hcovr⟩ := hc
    have hleftcase : coverage (KDTree.update_bounds (KDTree.node nlat nlon nid
        ax mnla mxla mnlo mxlo (insert_recursive la lo id (d + 1) l) r)) := by
      set l1 := insert_recursive la lo id (d + 1) l with hl1
      have hcovl1 : coverage l1 := ihl (d + 1) hcovl
      have hb1 : boxWithin (⟨mnla, mxla, mnlo, mxlo⟩ : Box α)
          (extendBox (extendBox ⟨mnla, mxla, mnlo, mxlo⟩ l1) r) :=
        boxWithin_trans (boxWithin_extendBox _ l1) (boxWithin_extendBox _ r)
      have hbl1 : boxWithin (rootBox l1)
          (extendBox (extendBox ⟨mnla, mxla, mnlo, mxlo⟩ l1) r) :=
        boxWithin_trans
          (boxWithin_extendBox_child _ l1 (insert_recursive_ne_nil la lo id _ l))
          (boxWithin_extendBox _ r)
      simp only [KDTree.update_bounds, coverage, treePoints]
      refine ⟨?_, hcovl1, hcovr⟩
      intro p hp
      rcases List.mem_cons.mp hp with rfl | hp2
      · exact pointIn_mono (hpts _ (List.mem_cons_self _ _)) hb1
      · rcases List.mem_append.mp hp2 with hpl | hpr
        · exact pointIn_mono
            (coverage_points (insert_recursive_ne_nil la lo id _ l) hcovl1 p hpl)
            hbl1
        · refine pointIn_mono (hpts p ?_) hb1
          exact List.mem_cons_of_mem _ (List.mem_append.mpr (Or.inr hpr))
    have hrightcase : coverage (KDTree.update_bounds (KDTree.node nlat nlon nid
        ax mnla mxla mnlo mxlo l (insert_recursive la lo id (d + 1) r))) := by
      set r1 := insert_recursive la lo id (d + 1) r with hr1
      have hcovr1 : coverage r1 := ihr (d + 1) hcovr
      have hb1 : boxWithin (⟨mnla, mxla, mnlo, mxlo⟩ : Box α)
          (extendBox (extendBox ⟨mnla, mxla, mnlo, mxlo⟩ l) r1) :=
        boxWithin_trans (boxWithin_extendBox _ l) (boxWithin_extendBox _ r1)
      have hbr1 : boxWithin (rootBox r1)
          (extendBox (extendBox ⟨mnla, mxla, mnlo, mxlo⟩ l) r1) :=
        boxWithin_extendBox_child _ r1 (insert_recursive_ne_nil la lo id _ r)
      simp only [KDTree.update_bounds, coverage, treePoints]
      refine ⟨?_, hcovl, hcovr1⟩
      intro p hp
      rcases List.mem_cons.mp hp with rfl | hp2
      · exact pointIn_mono (hpts _ (List.mem_cons_self _ _)) hb1
      · rcases List.mem_append.mp hp2 with hpl | hpr
        · refine pointIn_mono (hpts p ?_) hb1
          exact List.mem_cons_of_mem _ (List.mem_append.mpr (Or.inl hpl))
        · exact pointIn_mono
            (coverage_points (insert_recursive_ne_nil la lo id _ r) hcovr1 p hpr)
            hbr1
    simp only [insert_recursive]
    split_ifs <;> first | exact hleftcase | exact hrightcase

/-- Looking up the identifier just allocated returns the new record. -/
theorem get_record_add_new (s : RecordStore α) (la lo : α) (t : ℚ) :
    (s.add_record la lo t).2.get_record s.next_id =
      some ⟨la, lo, t, s.next_id⟩ := by
  simp only [RecordStore.add_record, RecordStore.get_record, List.lookup,
    beq_self_eq_true]
  exact List.getElem?_concat_length _ _

/-- Adding a record does not disturb the lookup of a different id. -/
theorem get_record_add_old (s : RecordStore α) (la lo : α) (t : ℚ) (id : ℕ)
    (hne : id ≠ s.next_id) (rec : Record α) (h : s.get_record id = some rec) :
    (s.add_record la lo t).2.get_record id = some rec := by
  simp only [RecordStore.get_record] at h
  cases hl : s.id_to_index.lookup id with
  | none => rw [hl] at h; exact absurd h (by simp)
  | some index =>
    rw [hl] at h
    have hlt : index < s.records.length := (List.getElem?_eq_some.mp h).1
    simp only [RecordStore.add_record, RecordStore.get_record, List.lookup,
      beq_false_of_ne hne, hl]
    rw [List.getElem?_append, if_pos hlt]
    exact h

/-- Tree-to-table correspondence: every point stored in the spatial tree
carries an allocated identifier whose record table entry has exactly the
coordinates of the point. -/
def corrOK (e : SpatioIndexCore α) : Prop :=
  ∀ p ∈ treePoints e.spatial_index.root,
    p.2.2 < e.record_store.next_id ∧
    ∃ rec, e.record_store.get_record p.2.2 = some rec ∧
      rec.lat = p.1 ∧ rec.lon = p.2.1 ∧ rec.id = p.2.2

/-- Inserting preserves the tree-to-table correspondence. -/
theorem corrOK_insert (e : SpatioIndexCore α) (la lo : α) (t : ℚ)
    (h : corrOK e) : corrOK (e.insert la lo t).2 := by
  intro p hp
  have hroot : (e.insert la lo t).2.spatial_index.root =
      insert_recursive la lo e.record_store.next_id 0 e.spatial_index.root := rfl
  rw [hroot] at hp
  have hperm := treePoints_insert_perm la lo e.record_store.next_id 0
    e.spatial_index.root
  have hstore : (e.insert la lo t).2.record_store =
      (e.record_store.add_record la lo t).2 := rfl
  have hnext : (e.insert la lo t).2.record_store.next_id =
      e.record_store.next_id + 1 := rfl
  rcases List.mem_cons.mp (hperm.mem_iff.mp hp) with rfl | hold
  · refine ⟨by rw [hnext]; exact Nat.lt_succ_self _, ?_⟩
    refine ⟨⟨la, lo, t, e.record_store.next_id⟩, ?_, rfl, rfl, rfl⟩
    rw [hstore]
    exact get_record_add_new e.record_store la lo t
  · obtain ⟨hlt, rec, hrec, h1, h2, h3⟩ := h p hold
    refine ⟨by rw [hnext]; omega, rec, ?_, h1, h2, h3⟩
    rw [hstore]
    exact get_record_add_old e.record_store la lo t p.2.2 (by omega) rec hrec

/-- Every engine reached by inserts satisfies the correspondence. -/
theorem corrOK_buildCore (rs : List (α × α × ℚ)) :
    corrOK (buildCore (α := α) rs) := by
  have main : ∀ (l : List (α × α × ℚ)) (e : SpatioIndexCore α), corrOK e →
      corrOK (List.foldl (fun e r => (e.insert r.1 r.2.1 r.2.2).2) e l) := by
    intro l
    induction l with
    | nil => intro e he; exact he
    | cons hd tl ih => intro e he; exact ih _ (corrOK_insert e _ _ _ he)
  refine main rs initialCore ?_
  intro p hp
  simp [initialCore, treePoints] at hp

/-- Every engine reached by inserts has covering bounding boxes. -/
theorem coverage_buildCore (rs : List (α × α × ℚ)) :
    coverage (buildCore (α := α) rs).spatial_index.root := by
  have main : ∀ (l : List (α × α × ℚ)) (e : SpatioIndexCore α),
      coverage e.spatial_index.root →
      coverage (List.foldl (fun e r => (e.insert r.1 r.2.1 r.2.2).2)
        e l).spatial_index.root := by
    intro l
    induction l with
    | nil => intro e he; exact he
    | cons hd tl ih =>
      intro e he
      exact ih _ (coverage_insert _ _ _ 0 _ he)
  exact main rs initialCore trivial

/-- Decidable bounds coverage check (invariant I2, property P8): at each
node, every subtree identifier resolves through the record table to a
record whose coordinates agree with the stored point and lie inside the
node bounding box. -/
def checkCoverage (s : RecordStore α) : KDTree α → Bool
  | KDTree.nil => true
  | KDTree.node la lo id ax mnla mxla mnlo mxlo l r =>
    (treePoints (KDTree.node la lo id ax mnla mxla mnlo mxlo l r)).all
      (fun p =>
        match s.get_record p.2.2 with
        | some rec => decide (rec.lat = p.1) && decide (rec.lon = p.2.1) &&
            decide (mnla ≤ rec.lat) && decide (rec.lat ≤ mxla) &&
            decide (mnlo ≤ rec.lon) && decide (rec.lon ≤ mxlo)
        | none => false) &&
    checkCoverage s l && checkCoverage s r

/-- Coverage plus correspondence imply the decidable check. -/
theorem checkCoverage_of_coverage (s : RecordStore α) :
    ∀ t : KDTree α, coverage t →
      (∀ p ∈ treePoints t, ∃ rec, s.get_record p.2.2 = some rec ∧
        rec.lat = p.1 ∧ rec.lon = p.2.1) →
      checkCoverage s t = true := by
  intro t
  induction t with
  | nil => intro _ _; rfl
  | node nlat nlon nid ax mnla mxla mnlo mxlo l r ihl ihr =>
    intro hcov hcorr
    obtain ⟨hpts, hcovl, hcovr⟩ := hcov
    simp only [checkCoverage, Bool.and_eq_true, List.all_eq_true]
    refine ⟨⟨?_, ?_⟩, ?_⟩
    · intro p hp
      obtain ⟨rec, hrec, h1, h2⟩ := hcorr p hp
      obtain ⟨b1, b2, b3, b4⟩ := hpts p hp
      rw [hrec]
      simp only [Bool.and_eq_true, decide_eq_true_eq]
      rw [h1, h2]
      exact ⟨⟨⟨⟨⟨rfl, rfl⟩, b1⟩, b2⟩, b3⟩, b4⟩
    · refine ihl hcovl ?_
      intro p hp
      exact hcorr p (List.mem_cons_of_mem _ (List.mem_append.mpr (Or.inl hp)))
    · refine ihr hcovr ?_
      intro p hp
      exact hcorr p (List.mem_cons_of_mem _ (List.mem_append.mpr (Or.inr hp)))

/-- C6: after every insertion sequence, every spatial tree node bounding
box contains the coordinates, resolved through the record table, of every
record reachable in its subtree, the node point included. -/
theorem bounds_cover_subtree_records (rs : List (α × α × ℚ)) :
    checkCoverage (buildCore (α := α) rs).record_store
      (buildCore (α := α) rs).spatial_index.root = true := by
  refine checkCoverage_of_coverage _ _ (coverage_buildCore rs) ?_
  intro p hp
  obtain ⟨hlt, rec, hrec, h1, h2, h3⟩ := corrOK_buildCore rs p hp
  exact ⟨rec, hrec, h1, h2⟩

/-- With a positive second argument, atan2 is the arctangent of the
ratio. -/
theorem atan2_pos_x (y x : ℝ) (hx : 0 < x) :
    atan2 y x = Real.arctan (y / x) := by
  unfold atan2
  rw [if_pos hx]

/-- Sine is below the identity on the nonnegative reals. -/
theorem sin_le_self (x : ℝ) (hx : 0 ≤ x) : Real.sin x ≤ x := by
  rcases eq_or_lt_of_le hx with h | h
  · rw [← h, Real.sin_zero]
  · exact le_of_lt (Real.sin_lt h)

/-- Arcsine dominates the identity on the unit interval. -/
theorem arcsin_ge_self (y : ℝ) (h0 : 0 ≤ y) (h1 : y ≤ 1) :
    y ≤ Real.arcsin y := by
  have hs : Real.sin (Real.arcsin y) = y := Real.sin_arcsin (by linarith) h1
  have hnn : 0 ≤ Real.arcsin y := Real.arcsin_nonneg.mpr h0
  calc y = Real.sin (Real.arcsin y) := hs.symm
    _ ≤ Real.arcsin y := sin_le_self _ hnn

/-- Arctangent is at least its argument scaled down to the unit circle. -/
theorem arctan_ge (x : ℝ) (hx : 0 ≤ x) :
    x / Real.sqrt (1 + x ^ 2) ≤ Real.arctan x := by
  rw [Real.arctan_eq_arcsin]
  refine arcsin_ge_self _ ?_ ?_
  · positivity
  · rw [div_le_one (by positivity)]
    have h2 : x = Real.sqrt (x ^ 2) := (Real.sqrt_sq hx).symm
    calc x = Real.sqrt (x ^ 2) := h2
      _ ≤ Real.sqrt (1 + x ^ 2) := Real.sqrt_le_sqrt (by linarith)

/-- Haversine evaluation along a meridian: from latitude 60 to latitude
0 at the same longitude the great-circle distance is one sixth of the
half circumference. -/
theorem hav_meridian : haversine_distance 60 0 0 0 = 6371000 * Real.pi / 3 := by
  simp only [haversine_distance]
  have e1 : ((0:ℝ) - 60) * Real.pi / 180 / 2 = -(Real.pi / 6) := by ring
  have e2 : ((0:ℝ) - 0) * Real.pi / 180 / 2 = 0 := by ring
  have e3 : (60:ℝ) * Real.pi / 180 = Real.pi / 3 := by ring
  have e4 : (0:ℝ) * Real.pi / 180 = 0 := by ring
  rw [e1, e2, e3, e4, Real.sin_neg, Real.sin_pi_div_six, Real.sin_zero,
    Real.cos_zero]
  have ha : -(1/2 : ℝ) * -(1/2) + Real.cos (Real.pi / 3) * 1 * (0 * 0) = 1/4 := by
    ring
  rw [ha]
  have s1 : Real.sqrt (1/4 : ℝ) = 1/2 := by
    rw [show (1/4 : ℝ) = (1/2)^2 by norm_num, Real.sqrt_sq (by norm_num)]
  have s2 : Real.sqrt (1 - 1/4 : ℝ) = Real.sqrt 3 / 2 := by
    rw [show (1 - 1/4 : ℝ) = 3 * (1/2)^2 by norm_num,
      Real.sqrt_mul (by norm_num : (0:ℝ) ≤ 3),
      Real.sqrt_sq (by norm_num : (0:ℝ) ≤ 1/2)]
    ring
  rw [s1, s2]
  rw [atan2_pos_x _ _ (by positivity)]
  have harg : (1/2 : ℝ) / (Real.sqrt 3 / 2) = Real.tan (Real.pi / 6) := by
    rw [Real.tan_eq_sin_div_cos, Real.sin_pi_div_six, Real.cos_pi_div_six]
  rw [harg, Real.arctan_tan (by linarith [Real.pi_pos]) (by linarith [Real.pi_pos])]
  ring

/-- Haversine evaluation along the parallel at latitude 60 between
longitudes 0 and 90. -/
theorem hav_parallel : haversine_distance 60 0 60 90 =
    6371000 * 2 * Real.arctan (Real.sqrt (1/8) / Real.sqrt (7/8)) := by
  simp only [haversine_distance]
  have e1 : ((60:ℝ) - 60) * Real.pi / 180 / 2 = 0 := by ring
  have e2 : ((90:ℝ) - 0) * Real.pi / 180 / 2 = Real.pi / 4 := by ring
  have e3 : (60:ℝ) * Real.pi / 180 = Real.pi / 3 := by ring
  rw [e1, e2, e3, Real.sin_zero, Real.sin_pi_div_four, Real.cos_pi_div_three]
  have h2 : Real.sqrt 2 * Real.sqrt 2 = 2 := Real.mul_self_sqrt (by norm_num)
  have ha : (0:ℝ) * 0 + 1/2 * (1/2) *
      (Real.sqrt 2 / 2 * (Real.sqrt 2 / 2)) = 1/8 := by
    linear_combination (1/16) * h2
  rw [ha, show (1 - 1/8 : ℝ) = 7/8 by norm_num]
  rw [atan2_pos_x _ _ (Real.sqrt_pos.mpr (by norm_num))]

/-- The parallel distance exceeds 4500 km. -/
theorem hav_parallel_gt : (4500 * 1000 : ℝ) < haversine_distance 60 0 60 90 := by
  rw [hav_parallel]
  have harg : Real.sqrt (1/8) / Real.sqrt (7/8) = Real.sqrt (1/7) := by
    rw [← Real.sqrt_div (by norm_num : (0:ℝ) ≤ 1/8),
      show ((1/8) / (7/8) : ℝ) = 1/7 by norm_num]
  rw [harg]
  have hsq : Real.sqrt (1/7 : ℝ) ^ 2 = 1/7 := Real.sq_sqrt (by norm_num)
  have hb := arctan_ge (Real.sqrt (1/7)) (Real.sqrt_nonneg _)
  rw [hsq, show (1 + 1/7 : ℝ) = 8/7 by norm_num] at hb
  have harg2 : Real.sqrt (1/7 : ℝ) / Real.sqrt (8/7) = Real.sqrt (1/8) := by
    rw [← Real.sqrt_div (by norm_num : (0:ℝ) ≤ 1/7),
      show ((1/7) / (8/7) : ℝ) = 1/8 by norm_num]
  rw [harg2] at hb
  have hnum : (0.3535 : ℝ) < Real.sqrt (1/8) := by
    nlinarith [Real.sq_sqrt (show (0:ℝ) ≤ 1/8 by norm_num),
      Real.sqrt_nonneg (1/8 : ℝ)]
  nlinarith [hb, hnum]

/-- The parallel distance is below the meridian distance to the equator. -/
theorem hav_parallel_lt_meridian :
    haversine_distance 60 0 60 90 < haversine_distance 60 0 0 0 := by
  rw [hav_parallel, hav_meridian]
  have harg : Real.sqrt (1/8) / Real.sqrt (7/8) = Real.sqrt (1/7) := by
    rw [← Real.sqrt_div (by norm_num : (0:ℝ) ≤ 1/8),
      show ((1/8) / (7/8) : ℝ) = 1/7 by norm_num]
  rw [harg]
  have h3pos : (0:ℝ) < Real.sqrt 3 := Real.sqrt_pos.mpr (by norm_num)
  have htan : Real.tan (Real.pi / 6) = Real.sqrt (1/3) := by
    rw [Real.tan_eq_sin_div_cos, Real.sin_pi_div_six, Real.cos_pi_div_six,
      show (1/3 : ℝ) = 3⁻¹ by norm_num, Real.sqrt_inv]
    field_simp
  have hlt : Real.sqrt (1/7 : ℝ) < Real.sqrt (1/3) :=
    Real.sqrt_lt_sqrt (by norm_num) (by norm_num)
  have harctan : Real.arctan (Real.sqrt (1/7)) < Real.pi / 6 := by
    calc Real.arctan (Real.sqrt (1/7))
        < Real.arctan (Real.sqrt (1/3)) := Real.arctan_strictMono hlt
      _ = Real.arctan (Real.tan (Real.pi / 6)) := by rw [htan]
      _ = Real.pi / 6 := Real.arctan_tan (by linarith [Real.pi_pos])
          (by linarith [Real.pi_pos])
  nlinarith [harctan]

/-- The meridian distance exceeds 4500 km. -/
theorem hav_meridian_gt : (4500 * 1000 : ℝ) < haversine_distance 60 0 0 0 := by
  rw [hav_meridian]
  nlinarith [Real.pi_gt_three]

/-- Haversine evaluation over the pole: from (60, 0) to (80, 180) the
great-circle distance is 40 degrees of arc. -/
theorem hav_over_pole : haversine_distance 60 0 80 180 =
    6371000 * 2 * (Real.pi / 9) := by
  simp only [haversine_distance]
  have e1 : ((80:ℝ) - 60) * Real.pi / 180 / 2 = Real.pi / 18 := by ring
  have e2 : ((180:ℝ) - 0) * Real.pi / 180 / 2 = Real.pi / 2 := by ring
  have e3 : (60:ℝ) * Real.pi / 180 = Real.pi / 3 := by ring
  have e4 : (80:ℝ) * Real.pi / 180 = 4 * Real.pi / 9 := by ring
  rw [e1, e2, e3, e4, Real.sin_pi_div_two, Real.cos_pi_div_three]
  have hcos : Real.cos (4 * Real.pi / 9) = Real.sin (Real.pi / 18) := by
    rw [show (4 * Real.pi / 9 : ℝ) = Real.pi / 2 - Real.pi / 18 by ring,
      Real.cos_pi_div_two_sub]
  rw [hcos]
  have hs9 : Real.sin (Real.pi / 9) =
      2 * Real.sin (Real.pi / 18) * Real.cos (Real.pi / 18) := by
    rw [show (Real.pi / 9 : ℝ) = 2 * (Real.pi / 18) by ring, Real.sin_two_mul]
  have hsc : Real.sin (Real.pi / 18) ^ 2 + Real.cos (Real.pi / 18) ^ 2 = 1 :=
    Real.sin_sq_add_cos_sq _
  have h3 : 3 * Real.sin (Real.pi / 18) - 4 * Real.sin (Real.pi / 18) ^ 3 =
      1/2 := by
    have h := Real.sin_three_mul (Real.pi / 18)
    rw [show 3 * (Real.pi / 18 : ℝ) = Real.pi / 6 by ring,
      Real.sin_pi_div_six] at h
    linarith
  have ha : Real.sin (Real.pi / 18) * Real.sin (Real.pi / 18) +
      1/2 * Real.sin (Real.pi / 18) * (1 * 1) =
      Real.sin (Real.pi / 9) * Real.sin (Real.pi / 9) := by
    rw [hs9]
    linear_combination (-(Real.sin (Real.pi / 18))) * h3 -
      4 * Real.sin (Real.pi / 18) ^ 2 * hsc
  rw [ha]
  have h9nn : 0 ≤ Real.sin (Real.pi / 9) :=
    Real.sin_nonneg_of_nonneg_of_le_pi (by positivity)
      (by nlinarith [Real.pi_pos])
  have hc9nn : 0 ≤ Real.cos (Real.pi / 9) := by
    refine le_of_lt (Real.cos_pos_of_mem_Ioo ⟨?_, ?_⟩) <;>
      nlinarith [Real.pi_pos]
  have hc9pos : 0 < Real.cos (Real.pi / 9) := by
    refine Real.cos_pos_of_mem_Ioo ⟨?_, ?_⟩ <;> nlinarith [Real.pi_pos]
  have hsq : Real.sqrt (Real.sin (Real.pi / 9) * Real.sin (Real.pi / 9)) =
      Real.sin (Real.pi / 9) := by
    rw [show Real.sin (Real.pi / 9) * Real.sin (Real.pi / 9) =
      Real.sin (Real.pi / 9) ^ 2 by ring, Real.sqrt_sq h9nn]
  have hc2 : (1 : ℝ) - Real.sin (Real.pi / 9) * Real.sin (Real.pi / 9) =
      Real.cos (Real.pi / 9) ^ 2 := by
    linear_combination (-1 : ℝ) * Real.sin_sq_add_cos_sq (Real.pi / 9)
  rw [hsq, hc2, Real.sqrt_sq hc9nn, atan2_pos_x _ _ hc9pos,
    ← Real.tan_eq_sin_div_cos,
    Real.arctan_tan (by nlinarith [Real.pi_pos]) (by nlinarith [Real.pi_pos])]

/-- The over-pole distance is within 4500 km. -/
theorem hav_over_pole_le :
    haversine_distance 60 0 80 180 ≤ (4500 * 1000 : ℝ) := by
  rw [hav_over_pole]
  nlinarith [Real.pi_lt_d2]

/-- The over-pole distance is below the parallel distance: the pruning
projection onto the longitude plane overstates the distance near the
poles. -/
theorem hav_over_pole_lt_parallel :
    haversine_distance 60 0 80 180 < haversine_distance 60 0 60 90 := by
  rw [hav_over_pole, hav_parallel]
  have harg : Real.sqrt (1/8) / Real.sqrt (7/8) = Real.sqrt (1/7) := by
    rw [← Real.sqrt_div (by norm_num : (0:ℝ) ≤ 1/8),
      show ((1/8) / (7/8) : ℝ) = 1/7 by norm_num]
  rw [harg]
  have hsq : Real.sqrt (1/7 : ℝ) ^ 2 = 1/7 := Real.sq_sqrt (by norm_num)
  have hb := arctan_ge (Real.sqrt (1/7)) (Real.sqrt_nonneg _)
  rw [hsq, show (1 + 1/7 : ℝ) = 8/7 by norm_num] at hb
  have harg2 : Real.sqrt (1/7 : ℝ) / Real.sqrt (8/7) = Real.sqrt (1/8) := by
    rw [← Real.sqrt_div (by norm_num : (0:ℝ) ≤ 1/7),
      show ((1/7) / (8/7) : ℝ) = 1/8 by norm_num]
  rw [harg2] at hb
  have hnum : (0.3535 : ℝ) < Real.sqrt (1/8) := by
    nlinarith [Real.sq_sqrt (show (0:ℝ) ≤ 1/8 by norm_num),
      Real.sqrt_nonneg (1/8 : ℝ)]
  nlinarith [hb, hnum, Real.pi_lt_d2]

/-- Membership in a guarded branch implies membership in the branch. -/
theorem mem_of_ite_nil {p : Prop} [Decidable p] {id : ℕ} {res : List ℕ}
    (h : id ∈ (if p then res else [])) : id ∈ res := by
  split_ifs at h with hp
  · exact h
  · simp at h

/-- Every identifier returned by the radius traversal belongs to a stored
point whose distance to the center is within the radius, for any distance
function. -/
theorem radius_query_recursive_sound (hav : α → α → α → α → α)
    (center_lat center_lon radius_m : α) :
    ∀ (t : KDTree α) (id : ℕ),
      id ∈ radius_query_recursive hav center_lat center_lon radius_m t →
      ∃ la lo, (la, lo, id) ∈ treePoints t ∧
        hav center_lat center_lon la lo ≤ radius_m := by
  intro t
  induction t with
  | nil => intro id h; simp [radius_query_recursive] at h
  | node nlat nlon nid ax mnla mxla mnlo mxlo l r ihl ihr =>
    intro id h
    simp only [radius_query_recursive, List.mem_append] at h
    rcases h with (h | h) | h
    · split_ifs at h with hd
      · simp only [List.mem_singleton] at h
        subst h
        exact ⟨nlat, nlon, List.mem_cons_self _ _, hd⟩
      · simp at h
    · obtain ⟨la, lo, hmem, hle⟩ := ihl id (mem_of_ite_nil h)
      exact ⟨la, lo,
        List.mem_cons_of_mem _ (List.mem_append.mpr (Or.inl hmem)), hle⟩
    · obtain ⟨la, lo, hmem, hle⟩ := ihr id (mem_of_ite_nil h)
      exact ⟨la, lo,
        List.mem_cons_of_mem _ (List.mem_append.mpr (Or.inr hmem)), hle⟩

/-- C1 (amended): every identifier returned by query_radius on an engine
reached by inserts is the identifier of an inserted record whose
Haversine distance to the center is at most the radius converted to
meters (soundness); the no-omission clause of the original claim fails
near the poles and is refuted separately. -/
theorem query_radius_sound (rs : List (ℝ × ℝ × ℚ))
    (center_lat center_lon radius_km : ℝ) (id : ℕ)
    (h : id ∈ SpatioIndexCore.query_radius haversine_distance
      (buildCore rs) center_lat center_lon radius_km) :
    ∃ rec ∈ (buildCore rs).record_store.records, rec.id = id ∧
      haversine_distance center_lat center_lon rec.lat rec.lon ≤
        radius_km * 1000 := by
  obtain ⟨la, lo, hmem, hle⟩ := radius_query_recursive_sound
    haversine_distance center_lat center_lon (radius_km * 1000)
    (buildCore rs).spatial_index.root id h
  obtain ⟨hlt, rec, hrec, h1, h2, h3⟩ := corrOK_buildCore rs (la, lo, id) hmem
  exact ⟨rec, get_record_mem _ _ _ hrec, h3, by rw [h1, h2]; exact hle⟩

/-- Haversine vanishes on coincident points at the origin. -/
theorem haversine_zero : haversine_distance 0 0 0 0 = 0 := by
  simp only [haversine_distance]
  norm_num [Real.sin_zero, Real.cos_zero, Real.sqrt_zero, Real.sqrt_one,
    atan2_pos_x _ _ (by norm_num : (0:ℝ) < 1), Real.arctan_zero]

/-- Witness for query_radius_sound at a one-record engine. -/
theorem query_radius_sound_witness :
    ∃ rec ∈ (buildCore [((0:ℝ), 0, (5:ℚ))]).record_store.records,
      rec.id = 1 ∧ haversine_distance 0 0 rec.lat rec.lon ≤ 1 * 1000 := by
  refine query_radius_sound [((0:ℝ), 0, (5:ℚ))] 0 0 1 1 ?_
  have hroot : (buildCore [((0:ℝ), 0, (5:ℚ))]).spatial_index.root =
      KDTree.node 0 0 1 0 0 0 0 0 KDTree.nil KDTree.nil := rfl
  show (1:ℕ) ∈ radius_query_recursive haversine_distance 0 0 (1 * 1000)
    (buildCore [((0:ℝ), 0, (5:ℚ))]).spatial_index.root
  rw [hroot]
  norm_num [radius_query_recursive, haversine_zero]

/-- Spatial tree reached by inserting (0,0), (60,90), (80,180) in order:
the second point goes right of the root on the latitude axis, the third
goes right of it again on the longitude axis. -/
theorem pole_tree_root :
    (buildCore [((0:ℝ), 0, (1:ℚ)), (60, 90, 2), (80, 180, 3)]).spatial_index.root =
      KDTree.node 0 0 1 0 0 80 0 180 KDTree.nil
        (KDTree.node 60 90 2 1 60 80 90 180 KDTree.nil
          (KDTree.node 80 180 3 0 80 80 180 180 KDTree.nil KDTree.nil)) := by
  show insert_recursive (80:ℝ) 180 3 0
      (insert_recursive 60 90 2 0 (insert_recursive 0 0 1 0 KDTree.nil)) = _
  norm_num [insert_recursive, KDTree.update_bounds, extendBox, min_def, max_def]

/-- C1 counterexample: in the three-point engine above, record 3 sits at
(80, 180), within 4500 km of the query center (60, 0), yet the radius
query prunes the subtree holding it away, because the splitting-plane
distance to the longitude plane at 90 overstates the true distance over
the pole.  The claimed exactness of query_radius fails. -/
theorem query_radius_misses_record :
    (buildCore [((0:ℝ), 0, (1:ℚ)), (60, 90, 2), (80, 180, 3)]).get_record 3 =
      some ⟨80, 180, 3, 3⟩ ∧
    haversine_distance 60 0 80 180 ≤ 4500 * 1000 ∧
    (3:ℕ) ∉ SpatioIndexCore.query_radius haversine_distance
      (buildCore [((0:ℝ), 0, (1:ℚ)), (60, 90, 2), (80, 180, 3)]) 60 0 4500 := by
  refine ⟨rfl, by have := hav_over_pole_le; norm_num at this ⊢; linarith, ?_⟩
  have hnA : ¬ (haversine_distance 60 0 0 0 ≤ (4500000 : ℝ)) := by
    have := hav_meridian_gt
    norm_num at this ⊢
    linarith
  have hpA : (4500000 : ℝ) < haversine_distance 60 0 0 0 := by
    have := hav_meridian_gt
    norm_num at this ⊢
    linarith
  have hnB : ¬ (haversine_distance 60 0 60 90 ≤ (4500000 : ℝ)) := by
    have := hav_parallel_gt
    norm_num at this ⊢
    linarith
  have hpB : (4500000 : ℝ) < haversine_distance 60 0 60 90 := by
    have := hav_parallel_gt
    norm_num at this ⊢
    linarith
  show (3:ℕ) ∉ radius_query_recursive haversine_distance 60 0 (4500 * 1000)
    (buildCore [((0:ℝ), 0, (1:ℚ)), (60, 90, 2), (80, 180, 3)]).spatial_index.root
  rw [pole_tree_root]
  norm_num [radius_query_recursive, hnA, hpA, hnB, hpB]

/-- C2 counterexample: in the same three-point engine, query_knn with
k = 1 from (60, 0) returns record 2 at distance about 4604 km and never
visits record 3 at distance about 4448 km, because the far side is
skipped when the plane distance equals the current worst; the returned
identifier is farther than a non-returned one, refuting the distance
dominance clause. -/
theorem query_knn_dominance_fails :
    SpatioIndexCore.query_knn haversine_distance
      (buildCore [((0:ℝ), 0, (1:ℚ)), (60, 90, 2), (80, 180, 3)]) 60 0 1 = [2] ∧
    haversine_distance 60 0 80 180 < haversine_distance 60 0 60 90 ∧
    (buildCore [((0:ℝ), 0, (1:ℚ)), (60, 90, 2), (80, 180, 3)]).get_record 3 =
      some ⟨80, 180, 3, 3⟩ := by
  refine ⟨?_, hav_over_pole_lt_parallel, rfl⟩
  have hBA := hav_parallel_lt_meridian
  have hnAB : ¬ (haversine_distance 60 0 0 0 < haversine_distance 60 0 60 90) :=
    not_lt.mpr (le_of_lt hBA)
  have hstep3 : knn_recursive haversine_distance 60 0 1
      (KDTree.node 0 0 1 0 0 80 0 180 KDTree.nil
        (KDTree.node 60 90 2 1 60 80 90 180 KDTree.nil
          (KDTree.node 80 180 3 0 80 80 180 180 KDTree.nil KDTree.nil))) [] =
      [⟨2, haversine_distance 60 0 60 90⟩] := by
    norm_num [knn_recursive, knn_push, worstDistance, removeWorst, hBA, hnAB]
  show SpatialIndex.knn_query haversine_distance _ 60 0 1 = [2]
  rw [SpatialIndex.knn_query, if_neg, pole_tree_root, hstep3]
  · rfl
  · rw [pole_tree_root]
    simp
